import Mathlib

/-!
Shallow embedding of the agent-evals evaluation engine (TypeScript) in Lean 4.

Each definition is translated from one source file of the repository:
scoring (src/graders/scoring.ts), the grader pipeline (src/runner/pipeline.ts),
judge-only re-grading (src/runner/judge-only.ts), the runner
(src/runner/runner.ts), grader composition (src/graders/compose.ts), the
toolSequence grader (src/graders/deterministic/tool-sequence.ts) and the
three-layer judge response parser (src/graders/llm/judge-parser.ts).

Modelling conventions:
* JS `number` is modelled as `ℚ` (scores, weights, thresholds, latencies,
  costs); durations measured by `Date.now()` differences are `ℕ`.
* `async` functions with no I/O other than calling the functions they are
  handed are modelled as pure functions; the sequential `await` loop becomes
  `List.map` in declaration order.
* Optional object fields become `Option`; JS `x ?? d` becomes `Option.getD`.
* Wall-clock measurement and the timeout race are not computable from the
  arguments, so the per-case target outcome (success / throw / timeout) and
  the measured duration are inputs of the model (`TargetOutcome`).
* `JSON.parse` (a platform builtin) is modelled by an executable recursive
  descent JSON reader; regexes are translated into equivalent direct scanners.
-/

namespace AgentEval

/-- JSON values, the image of `JSON.parse`. -/
inductive Json where
  | null : Json
  | bool (b : Bool) : Json
  | num (q : ℚ) : Json
  | str (s : String) : Json
  | arr (elems : List Json) : Json
  | obj (fields : List (String × Json)) : Json

/-- `mode` of a run: `"live" | "replay" | "judge-only"`. -/
inductive RunMode where
  | live | replay | judgeOnly
deriving DecidableEq

/-- `category` of a case. -/
inductive CaseCategory where
  | happyPath | edgeCase | adversarial | multiStep | regression
deriving DecidableEq

/-- Token usage reported by the target. -/
structure TokenUsage where
  input : ℕ
  output : ℕ

/-- One tool call recorded in a `TargetOutput`. -/
structure ToolCall where
  name : String
  args : Option Json := none
  result : Option Json := none

/-- Output of one target invocation (the `raw` passthrough field is opaque
and read by no modelled operation, so it is omitted). -/
structure TargetOutput where
  text : Option String := none
  toolCalls : Option (List ToolCall) := none
  latencyMs : ℚ
  tokenUsage : Option TokenUsage := none
  cost : Option ℚ := none

/-- Result of one grader invocation (`metadata` is opaque and unread by the
modelled operations, so it is omitted). -/
structure GradeResult where
  pass : Bool
  score : ℚ
  reason : String
  graderName : String

/-- Ground-truth reference for a case. -/
structure CaseExpected where
  text : Option String := none
  toolCalls : Option (List ToolCall) := none
  metadata : Option Json := none

/-- Case input: a string-keyed mapping to JSON. -/
def CaseInput : Type := List (String × Json)

/-- One declared case. -/
structure Case where
  id : String
  description : Option String := none
  input : CaseInput := []
  expected : Option CaseExpected := none
  category : Option CaseCategory := none
  tags : List String := []

/-- One judge chat message. -/
structure JudgeMessage where
  role : String
  content : String

/-- Response of a judge call. -/
structure JudgeResponse where
  text : String
  modelId : Option String := none
  cost : Option ℚ := none

/-- The judge handle `(messages) → {text, modelId?, cost?}` (pure model of
the async call). -/
def JudgeFn : Type := List JudgeMessage → JudgeResponse

/-- Context handed to each grader. -/
structure GraderContext where
  caseId : String
  suiteId : String
  mode : RunMode
  graderName : String
  judge : Option JudgeFn := none

/-- A grader: `(output, expected?, context) → GradeResult`. -/
def GraderFn : Type := TargetOutput → Option CaseExpected → GraderContext → GradeResult

/-- A grader bound to its scoring policy. -/
structure GraderConfig where
  grader : GraderFn
  weight : Option ℚ := none
  required : Option Bool := none
  threshold : Option ℚ := none

/-- Aggregate result for one case. -/
structure CaseResult where
  pass : Bool
  score : ℚ
  failedGraders : List String
  reason : String

/-- `status` of a trial. -/
inductive TrialStatus where
  | pass | fail | error
deriving DecidableEq

/-- The record of one case execution. -/
structure Trial where
  caseId : String
  status : TrialStatus
  output : TargetOutput
  grades : List GradeResult
  score : ℚ
  durationMs : ℕ
  trialIndex : Option ℕ := none

/-- Per-category aggregation figures. -/
structure CategorySummary where
  total : ℕ
  passed : ℕ
  failed : ℕ
  errors : ℕ
  passRate : ℚ

/-- The trial-derived part of `RunSummary` (`Omit<RunSummary, "gateResult">`);
`byCategory` is a `Record<CaseCategory, CategorySummary>`, modelled as an
association list. -/
structure PartialSummary where
  totalCases : ℕ
  passed : ℕ
  failed : ℕ
  errors : ℕ
  passRate : ℚ
  totalCost : ℚ
  totalDurationMs : ℕ
  p95LatencyMs : ℚ
  byCategory : Option (List (CaseCategory × CategorySummary))

/-- A persisted run artifact. The `summary` (and its gate result) is read by
no modelled operation and is carried opaquely. -/
structure Run where
  schemaVersion : String
  id : String
  suiteId : String
  mode : RunMode
  trials : List Trial
  summary : Option PartialSummary := none
  timestamp : String
  configHash : String
  frameworkVersion : String

/-- A suite with cases fully resolved (`gates` is read by no modelled
operation and is omitted). -/
structure ResolvedSuite where
  name : String
  description : Option String := none
  target : CaseInput → TargetOutput
  cases : List Case
  defaultGraders : Option (List GraderConfig) := none
  concurrency : Option ℕ := none
  tags : List String := []

/-- Options for a run (the `judge` handle appears in the runner sources). -/
structure RunOptions where
  mode : RunMode
  timeoutMs : ℕ
  judge : Option JudgeFn := none

/-- `Math.min(...xs)` for a nonempty spread (empty gives Infinity in JS and
is unreachable at every call site; modelled as 0 there). -/
def jsMathMin : List ℚ → ℚ
  | [] => 0
  | x :: xs => xs.foldl min x

/-- `Math.max(...xs)` for a nonempty spread (empty is unreachable). -/
def jsMathMax : List ℚ → ℚ
  | [] => 0
  | x :: xs => xs.foldl max x

/-- Three-digit zero padding (helper for `qToFixed3`). -/
def pad3 (n : ℕ) : String :=
  if n < 10 then "00" ++ toString n
  else if n < 100 then "0" ++ toString n
  else toString n

/-- Stand-in for JS `score.toFixed(3)` (round to three decimals and render);
no claim depends on the exact digit string. -/
def qToFixed3 (q : ℚ) : String :=
  let m : ℤ := ⌊q * 1000 + 1 / 2⌋
  let sign := if m < 0 then "-" else ""
  let n := m.natAbs
  sign ++ toString (n / 1000) ++ "." ++ pad3 (n % 1000)

/-- Stand-in for JS number-to-string interpolation of a threshold; no claim
depends on the exact digit string. -/
def qToString (q : ℚ) : String :=
  if q.den = 1 then toString q.num else qToFixed3 q

/-- The loop body of the source's required-grader check at index `i`
(skipping an index when `grades[i]` or `configs[i]` is missing, as the
source's `continue` does): the grader's name when it is required and
failed. -/
def requiredFailPick (grades : List GradeResult) (configs : List GraderConfig)
    (i : ℕ) : Option String :=
  match grades[i]?, configs[i]? with
  | some grade, some config =>
      if config.required.getD false && !grade.pass then some grade.graderName else none
  | _, _ => none

/-- The loop body pairing `grades[i]` with `configs[i]` (skipping an index
when either is missing, as the source's `continue` does). -/
def pairPick (grades : List GradeResult) (configs : List GraderConfig)
    (i : ℕ) : Option (GradeResult × GraderConfig) :=
  match grades[i]?, configs[i]? with
  | some grade, some config => some (grade, config)
  | _, _ => none

/-- The source's `failedRequired` accumulator: names collected by the
required-grader loop. -/
def failedRequiredList (grades : List GradeResult) (configs : List GraderConfig) :
    List String :=
  (List.range grades.length).filterMap (requiredFailPick grades configs)

/-- The `(grade, config)` pairs visited by the source's weighted-average
loop. -/
def codePairs (grades : List GradeResult) (configs : List GraderConfig) :
    List (GradeResult × GraderConfig) :=
  (List.range grades.length).filterMap (pairPick grades configs)

/-- The source's `weightedSum` accumulator: `Σ grade.score · (weight ?? 1)`. -/
def codeWeightedSum (grades : List GradeResult) (configs : List GraderConfig) : ℚ :=
  ((codePairs grades configs).map fun p => p.1.score * p.2.weight.getD 1).sum

/-- The source's `totalWeight` accumulator: `Σ (weight ?? 1)`. -/
def codeTotalWeight (grades : List GradeResult) (configs : List GraderConfig) : ℚ :=
  ((codePairs grades configs).map fun p => p.2.weight.getD 1).sum

/-- The source's `failedGraders` accumulator of the weighted branch: the
names of the grades with `pass=false`. -/
def codeFailedGraders (grades : List GradeResult) (configs : List GraderConfig) :
    List String :=
  ((codePairs grades configs).filter fun p => !p.1.pass).map fun p => p.1.graderName

/-- The source's `failedGrade?.reason ?? "unknown"` suffix of the
required-failure reason. -/
def failedGradeReason (failedGrade : Option GradeResult) : String :=
  match failedGrade with
  | some g => g.reason
  | none => "unknown"

/-- The early-return record of `computeCaseResult` when some required grader
failed. -/
def requiredFailureResult (grades : List GradeResult) (failedRequired : List String) :
    CaseResult :=
  let failedGrade : Option GradeResult :=
    grades.find? fun g => failedRequired.contains g.graderName && !g.pass
  { pass := false, score := 0, failedGraders := failedRequired,
    reason := "Required grader '" ++ failedRequired.headD "" ++ "' failed: " ++
      failedGradeReason failedGrade }

/-- The weighted-average branch of `computeCaseResult`. -/
def weightedResult (grades : List GradeResult) (configs : List GraderConfig)
    (caseThreshold : ℚ) : CaseResult :=
  let weightedSum : ℚ := codeWeightedSum grades configs
  let totalWeight : ℚ := codeTotalWeight grades configs
  let failedGraders : List String := codeFailedGraders grades configs
  let score : ℚ := if totalWeight > 0 then weightedSum / totalWeight else 1
  let pass : Bool := decide (score ≥ caseThreshold)
  let reason : String :=
    if pass then "Score " ++ qToFixed3 score ++ " >= threshold " ++ qToString caseThreshold
    else "Score " ++ qToFixed3 score ++ " < threshold " ++ qToString caseThreshold ++
      ". Failed: " ++ String.intercalate ", " failedGraders
  { pass := pass, score := score, failedGraders := failedGraders, reason := reason }

/-- From src/graders/scoring.ts, `computeCaseResult`: aggregate the per-grader
results of one case. The source iterates `i` over `grades.length`; the loop
accumulators (`failedRequired`, `weightedSum`, `totalWeight`,
`failedGraders`) and the two return records are split into the named
definitions above. -/
def computeCaseResult (grades : List GradeResult) (configs : List GraderConfig)
    (caseThreshold : ℚ) : CaseResult :=
  if grades.isEmpty then
    { pass := true, score := 1, failedGraders := [], reason := "No graders configured" }
  else
    if (failedRequiredList grades configs).isEmpty then
      weightedResult grades configs caseThreshold
    else
      requiredFailureResult grades (failedRequiredList grades configs)

/-- From src/runner/pipeline.ts, `inferThreshold`: the minimum individual
threshold, or 0.5 as default. -/
def inferThreshold (configs : List GraderConfig) : ℚ :=
  let thresholds := configs.filterMap (·.threshold)
  if thresholds.isEmpty then 1 / 2 else jsMathMin thresholds

/-- Result of the per-case grading pipeline. -/
structure PipelineResult where
  grades : List GradeResult
  caseResult : CaseResult

/-- Context the pipeline receives from its caller. -/
structure PipelineContext where
  caseId : String
  suiteId : String
  mode : RunMode
  judge : Option JudgeFn := none

/-- From src/runner/pipeline.ts, `runGraderPipeline`: run all graders against
a target output and compute the aggregate result. Case graders, when
non-empty, replace suite defaults entirely. -/
def runGraderPipeline (output : TargetOutput) (expected : Option CaseExpected)
    (caseGraders : Option (List GraderConfig)) (suiteGraders : Option (List GraderConfig))
    (context : PipelineContext) : PipelineResult :=
  let configs :=
    match caseGraders with
    | some cg => if cg.isEmpty then suiteGraders.getD [] else cg
    | none => suiteGraders.getD []
  let grades := configs.map fun config =>
    config.grader output expected
      { caseId := context.caseId, suiteId := context.suiteId, mode := context.mode,
        graderName := "", judge := context.judge }
  let caseThreshold := inferThreshold configs
  let caseResult := computeCaseResult grades configs caseThreshold
  { grades := grades, caseResult := caseResult }

/-- Options of `runJudgeOnly`. -/
structure JudgeOnlyOptions where
  previousRun : Run
  suiteConfig : ResolvedSuite
  runOptions : RunOptions

/-- JS `Map` built from `(key, value)` pairs: on duplicate keys the last
entry wins; `get` of a missing key and of a key mapped to `undefined` are
both `undefined`. -/
def jsMapGet (pairs : List (String × Option CaseExpected)) (key : String) :
    Option CaseExpected :=
  match (pairs.filter fun p => p.1 == key).getLast? with
  | some p => p.2
  | none => none

/-- From src/runner/judge-only.ts, `runJudgeOnly`: re-grade the trials of a
previous run against the current suite config. Outputs are taken from the
previous run; the target function is never called. -/
def runJudgeOnly (options : JudgeOnlyOptions) : List Trial :=
  let previousRun := options.previousRun
  let suiteConfig := options.suiteConfig
  let runOptions := options.runOptions
  let expectedPairs := suiteConfig.cases.map fun c => (c.id, c.expected)
  previousRun.trials.map fun trial =>
    let expected := jsMapGet expectedPairs trial.caseId
    let pipelineResult := runGraderPipeline trial.output expected none
      suiteConfig.defaultGraders
      { caseId := trial.caseId, suiteId := previousRun.suiteId, mode := RunMode.judgeOnly,
        judge := runOptions.judge }
    { caseId := trial.caseId,
      status := if pipelineResult.caseResult.pass then TrialStatus.pass else TrialStatus.fail,
      output := trial.output,
      grades := pipelineResult.grades,
      score := pipelineResult.caseResult.score,
      durationMs := trial.durationMs,
      trialIndex := trial.trialIndex }

/-- How one target invocation resolved: the returned output, a thrown error
message, or expiry of the timeout. This is an input of the model because the
race against the timer is decided by the environment, not by the arguments. -/
inductive TargetOutcome where
  | ok (output : TargetOutput)
  | throws (message : String)
  | timeout

/-- From src/runner/runner.ts, `withTimeout`: the target promise raced
against a timer that rejects with `Timeout after {timeoutMs}ms`. The
observable result is the settled value of the race. -/
def withTimeout (outcome : TargetOutcome) (timeoutMs : ℕ) : Except String TargetOutput :=
  match outcome with
  | TargetOutcome.ok output => Except.ok output
  | TargetOutcome.throws message => Except.error message
  | TargetOutcome.timeout => Except.error ("Timeout after " ++ toString timeoutMs ++ "ms")

/-- From src/runner/runner.ts, `executeCase`: run one case. `outcome` is how
the target invocation resolved and `durationMs` the measured wall-clock
duration (both environment inputs). -/
def executeCase (testCase : Case) (suite : ResolvedSuite) (options : RunOptions)
    (outcome : TargetOutcome) (durationMs : ℕ) : Trial :=
  match withTimeout outcome options.timeoutMs with
  | Except.error message =>
      { caseId := testCase.id,
        status := TrialStatus.error,
        output := { text := some ("Target error: " ++ message), latencyMs := (durationMs : ℚ) },
        grades := [],
        score := 0,
        durationMs := durationMs }
  | Except.ok output =>
      let pipelineResult := runGraderPipeline output testCase.expected none
        suite.defaultGraders
        { caseId := testCase.id, suiteId := suite.name, mode := options.mode, judge := none }
      { caseId := testCase.id,
        status := if pipelineResult.caseResult.pass then TrialStatus.pass else TrialStatus.fail,
        output := output,
        grades := pipelineResult.grades,
        score := pipelineResult.caseResult.score,
        durationMs := durationMs }

/-- From src/runner/runner.ts, the trial-collection loop of `runSuite`: cases
run sequentially in declaration order, one trial per case, regardless of
earlier errors. `env` supplies each case's target outcome and measured
duration. (The surrounding `runSuite` adds run id, timestamps and the
config hash, which are I/O metadata outside this model.) -/
def runSuiteTrials (suite : ResolvedSuite) (options : RunOptions)
    (env : Case → TargetOutcome × ℕ) : List Trial :=
  suite.cases.map fun testCase =>
    executeCase testCase suite options (env testCase).1 (env testCase).2

/-- From src/runner/runner.ts, `computeP95`: the value at index
`ceil(0.95·n) − 1` of the ascending sort, clamped to `[0, n−1]`. -/
def computeP95 (values : List ℚ) : ℚ :=
  if values.isEmpty then 0
  else
    let sorted := values.mergeSort (· ≤ ·)
    let idx : ℤ := ⌈(95 : ℚ) / 100 * sorted.length⌉ - 1
    (sorted[idx.toNat]?).getD 0

/-- From src/runner/runner.ts, `computeByCategory`: a TODO stub — it returns
the empty record regardless of the trials. -/
def computeByCategory (_trials : List Trial) : List (CaseCategory × CategorySummary) :=
  []

/-- From src/runner/runner.ts, `computePartialSummary`: aggregate statistics
over the collected trials. -/
def computePartialSummary (trials : List Trial) (totalDurationMs : ℕ) : PartialSummary :=
  let passed := (trials.filter fun t => t.status == TrialStatus.pass).length
  let failed := (trials.filter fun t => t.status == TrialStatus.fail).length
  let errors := (trials.filter fun t => t.status == TrialStatus.error).length
  let totalCases := trials.length
  let passRate : ℚ := if totalCases > 0 then (passed : ℚ) / (totalCases : ℚ) else 0
  let totalCost : ℚ := (trials.map fun t => t.output.cost.getD 0).sum
  let p95LatencyMs := computeP95 (trials.map fun t => t.output.latencyMs)
  let byCategory := computeByCategory trials
  { totalCases := totalCases, passed := passed, failed := failed, errors := errors,
    passRate := passRate, totalCost := totalCost, totalDurationMs := totalDurationMs,
    p95LatencyMs := p95LatencyMs,
    byCategory := if byCategory.length > 0 then some byCategory else none }

/-- From src/graders/compose.ts, `all`: conjunction — every grader must
pass; score is the minimum score; no short-circuit. -/
def all (graders : List GraderFn) : GraderFn := fun output expected context =>
  if graders.isEmpty then
    { pass := true, score := 1, reason := "all() with empty grader list (vacuous truth)",
      graderName := "all()" }
  else
    let results := graders.map fun grader => grader output expected context
    let collectedNames := results.map (·.graderName)
    let allPassed := results.all (·.pass)
    let minScore := jsMathMin (results.map (·.score))
    let failures := results.filter fun r => !r.pass
    let graderName := "all(" ++ String.intercalate ", " collectedNames ++ ")"
    let reason :=
      if allPassed then "All " ++ toString results.length ++ " graders passed"
      else String.intercalate "; " (failures.map fun f => f.graderName ++ ": " ++ f.reason)
    { pass := allPassed, score := minScore, reason := reason, graderName := graderName }

/-- From src/graders/compose.ts, `any`: disjunction — at least one grader
must pass; score is the maximum score; no short-circuit. The best passer is
the first maximal-score passer (JS stable sort by descending score). -/
def any (graders : List GraderFn) : GraderFn := fun output expected context =>
  if graders.isEmpty then
    { pass := false, score := 0, reason := "any() with empty grader list (no successes possible)",
      graderName := "any()" }
  else
    let results := graders.map fun grader => grader output expected context
    let collectedNames := results.map (·.graderName)
    let anyPassed := results.any (·.pass)
    let maxScore := jsMathMax (results.map (·.score))
    let graderName := "any(" ++ String.intercalate ", " collectedNames ++ ")"
    if anyPassed then
      let bestPasser := ((results.filter (·.pass)).mergeSort fun a b => b.score ≤ a.score).head?
      { pass := true, score := maxScore,
        reason := match bestPasser with
          | some b => b.reason
          | none => "At least one grader passed",
        graderName := graderName }
    else
      let reason := String.intercalate "; " (results.map fun f => f.graderName ++ ": " ++ f.reason)
      { pass := false, score := maxScore, reason := reason, graderName := graderName }

/-- From src/graders/compose.ts, `not`: negation — inverts a grader's
result. -/
def not (grader : GraderFn) : GraderFn := fun output expected context =>
  let result := grader output expected context
  { pass := !result.pass, score := 1 - result.score,
    reason := "NOT: " ++ result.reason,
    graderName := "not(" ++ result.graderName ++ ")" }

/-- Matching mode of the `toolSequence` grader. -/
inductive ToolSequenceMode where
  | strict | unordered | subset | superset
deriving DecidableEq

/-- From src/graders/deterministic/tool-sequence.ts, `matchSequence`: compare
the actual tool-name list against the expected one under the given mode. -/
def matchSequence (actual : List String) (expected : List String)
    (mode : ToolSequenceMode) : Bool × String :=
  match mode with
  | ToolSequenceMode.strict =>
      if actual.length ≠ expected.length then
        (false, "Length mismatch: " ++ toString actual.length ++ " vs " ++
          toString expected.length)
      else if (actual.zip expected).all fun p => p.1 == p.2 then (true, "")
      else (false, "positional mismatch")
  | ToolSequenceMode.unordered =>
      let sortedActual := actual.mergeSort (· ≤ ·)
      let sortedExpected := expected.mergeSort (· ≤ ·)
      if sortedActual.length ≠ sortedExpected.length then
        (false, "Count mismatch: " ++ toString sortedActual.length ++ " vs " ++
          toString sortedExpected.length)
      else if sortedActual == sortedExpected then (true, "")
      else (false, "Different tools called (unordered comparison)")
  | ToolSequenceMode.subset =>
      let missing := expected.filter fun t => !(actual.contains t)
      if missing.isEmpty then (true, "")
      else (false, "Missing expected tools: " ++ String.intercalate ", " missing)
  | ToolSequenceMode.superset =>
      let extra := actual.filter fun t => !(expected.contains t)
      if extra.isEmpty then (true, "")
      else (false, "Unexpected tools called: " ++ String.intercalate ", " extra)

/-- String form of a `ToolSequenceMode` (the TS string literal). -/
def ToolSequenceMode.asString : ToolSequenceMode → String
  | ToolSequenceMode.strict => "strict"
  | ToolSequenceMode.unordered => "unordered"
  | ToolSequenceMode.subset => "subset"
  | ToolSequenceMode.superset => "superset"

/-- From src/graders/deterministic/tool-sequence.ts, `toolSequence`: check
that `output.toolCalls` matches the expected tool sequence under `mode`. -/
def toolSequence (tools : List String) (mode : ToolSequenceMode) : GraderFn :=
  fun output _expected _context =>
    let graderName := "toolSequence(" ++ String.intercalate "," tools ++ "|" ++
      mode.asString ++ ")"
    match output.toolCalls with
    | none =>
        if tools.isEmpty then
          { pass := true, score := 1, reason := "No tools expected and none called",
            graderName := graderName }
        else
          { pass := false, score := 0,
            reason := "No tool calls in output, expected: " ++ String.intercalate ", " tools,
            graderName := graderName }
    | some toolCalls =>
        if toolCalls.isEmpty then
          if tools.isEmpty then
            { pass := true, score := 1, reason := "No tools expected and none called",
              graderName := graderName }
          else
            { pass := false, score := 0,
              reason := "No tool calls in output, expected: " ++ String.intercalate ", " tools,
              graderName := graderName }
        else
          let actualNames := toolCalls.map (·.name)
          let result := matchSequence actualNames tools mode
          { pass := result.1, score := if result.1 then 1 else 0,
            reason := if result.1 then "Tool sequence matches" else
              "Tool sequence mismatch. " ++ result.2,
            graderName := graderName }

/-- JS `String.prototype.trim`: strip leading and trailing whitespace. -/
def jsTrim (s : String) : String :=
  String.mk (((s.data.dropWhile Char.isWhitespace).reverse.dropWhile Char.isWhitespace).reverse)

/-- JS `s.slice(0, n)` for `n ≥ 0` (code units approximated by characters). -/
def jsSlice (s : String) (n : ℕ) : String :=
  String.mk (s.data.take n)

/-- JSON-grammar whitespace (space, tab, line feed, carriage return). -/
def isJsonWs (c : Char) : Bool :=
  c == ' ' || c == '\t' || c == '\n' || c == '\r'

/-- Skip JSON whitespace. -/
def skipJsonWs (cs : List Char) : List Char :=
  cs.dropWhile isJsonWs

/-- Value of one hexadecimal digit. -/
def hexVal (c : Char) : Option ℕ :=
  if '0' ≤ c ∧ c ≤ '9' then some (c.toNat - '0'.toNat)
  else if 'a' ≤ c ∧ c ≤ 'f' then some (c.toNat - 'a'.toNat + 10)
  else if 'A' ≤ c ∧ c ≤ 'F' then some (c.toNat - 'A'.toNat + 10)
  else none

/-- JSON string body reader (after the opening quote), fuelled; `acc` holds
the decoded characters in reverse. -/
def parseJsonString : ℕ → List Char → List Char → Option (String × List Char)
  | 0, _, _ => none
  | fuel + 1, acc, cs =>
    match cs with
    | [] => none
    | c :: rest =>
      if c == '"' then some (String.mk acc.reverse, rest)
      else if c == '\\' then
        match rest with
        | [] => none
        | e :: rest2 =>
          if e == '"' then parseJsonString fuel ('"' :: acc) rest2
          else if e == '\\' then parseJsonString fuel ('\\' :: acc) rest2
          else if e == '/' then parseJsonString fuel ('/' :: acc) rest2
          else if e == 'b' then parseJsonString fuel (Char.ofNat 8 :: acc) rest2
          else if e == 'f' then parseJsonString fuel (Char.ofNat 12 :: acc) rest2
          else if e == 'n' then parseJsonString fuel ('\n' :: acc) rest2
          else if e == 'r' then parseJsonString fuel ('\r' :: acc) rest2
          else if e == 't' then parseJsonString fuel ('\t' :: acc) rest2
          else if e == 'u' then
            match rest2 with
            | h1 :: h2 :: h3 :: h4 :: rest3 =>
              match hexVal h1, hexVal h2, hexVal h3, hexVal h4 with
              | some a, some b, some c1, some d =>
                  parseJsonString fuel (Char.ofNat (((a * 16 + b) * 16 + c1) * 16 + d) :: acc) rest3
              | _, _, _, _ => none
            | _ => none
          else none
      else if c.toNat < 32 then none
      else parseJsonString fuel (c :: acc) rest

/-- Digit list to natural number. -/
def digitsToNat (ds : List Char) : ℕ :=
  ds.foldl (fun n c => n * 10 + (c.toNat - '0'.toNat)) 0

/-- JSON number reader: `-? (0 | [1-9][0-9]*) (. [0-9]+)? ([eE][+-]?[0-9]+)?`. -/
def parseJsonNumber (cs : List Char) : Option (ℚ × List Char) :=
  let signSplit : Bool × List Char :=
    match cs with
    | '-' :: r => (true, r)
    | _ => (false, cs)
  let neg := signSplit.1
  let intSplit := signSplit.2.span Char.isDigit
  let intPart := intSplit.1
  if intPart.isEmpty then none
  else if intPart.length > 1 && intPart.headD '0' == '0' then none
  else
    let fracRes : Option (List Char × List Char) :=
      match intSplit.2 with
      | '.' :: r =>
        let p := r.span Char.isDigit
        if p.1.isEmpty then none else some p
      | r => some ([], r)
    match fracRes with
    | none => none
    | some (fracDigits, cs3) =>
      let expRes : Option (ℤ × List Char) :=
        match cs3 with
        | 'e' :: r | 'E' :: r =>
          let es : ℤ × List Char :=
            match r with
            | '+' :: r2 => (1, r2)
            | '-' :: r2 => (-1, r2)
            | _ => (1, r)
          let p := es.2.span Char.isDigit
          if p.1.isEmpty then none else some (es.1 * (digitsToNat p.1 : ℤ), p.2)
        | r => some (0, r)
      match expRes with
      | none => none
      | some (exp, cs4) =>
        let mantissa : ℚ := (digitsToNat intPart : ℚ) +
          (digitsToNat fracDigits : ℚ) / ((10 : ℚ) ^ fracDigits.length)
        some ((if neg then -1 else 1) * mantissa * (10 : ℚ) ^ exp, cs4)

mutual

/-- Fuelled recursive-descent JSON value reader (model of `JSON.parse`;
running out of fuel means a parse failure, and the fuel handed out by
`jsonParse` exceeds what any input can consume). -/
def parseJsonValue : ℕ → List Char → Option (Json × List Char)
  | 0, _ => none
  | fuel + 1, cs =>
    match skipJsonWs cs with
    | [] => none
    | c :: rest =>
      if c == 'n' then
        if rest.take 3 = ['u', 'l', 'l'] then some (Json.null, rest.drop 3) else none
      else if c == 't' then
        if rest.take 3 = ['r', 'u', 'e'] then some (Json.bool true, rest.drop 3) else none
      else if c == 'f' then
        if rest.take 4 = ['a', 'l', 's', 'e'] then some (Json.bool false, rest.drop 4) else none
      else if c == '"' then
        match parseJsonString fuel [] rest with
        | some (s, rest2) => some (Json.str s, rest2)
        | none => none
      else if c == '[' then
        match skipJsonWs rest with
        | ']' :: rest2 => some (Json.arr [], rest2)
        | rest2 => parseJsonItems fuel rest2 []
      else if c == '{' then
        match skipJsonWs rest with
        | '}' :: rest2 => some (Json.obj [], rest2)
        | rest2 => parseJsonFields fuel rest2 []
      else if c == '-' || c.isDigit then
        match parseJsonNumber (c :: rest) with
        | some (q, rest2) => some (Json.num q, rest2)
        | none => none
      else none

/-- Array elements after `[`, fuelled. -/
def parseJsonItems : ℕ → List Char → List Json → Option (Json × List Char)
  | 0, _, _ => none
  | fuel + 1, cs, acc =>
    match parseJsonValue fuel cs with
    | none => none
    | some (v, rest) =>
      match skipJsonWs rest with
      | ',' :: rest2 => parseJsonItems fuel rest2 (acc ++ [v])
      | ']' :: rest2 => some (Json.arr (acc ++ [v]), rest2)
      | _ => none

/-- Object members after `{`, fuelled. -/
def parseJsonFields : ℕ → List Char → List (String × Json) → Option (Json × List Char)
  | 0, _, _ => none
  | fuel + 1, cs, acc =>
    match skipJsonWs cs with
    | '"' :: rest =>
      match parseJsonString fuel [] rest with
      | none => none
      | some (key, rest1) =>
        match skipJsonWs rest1 with
        | ':' :: rest2 =>
          match parseJsonValue fuel rest2 with
          | none => none
          | some (v, rest3) =>
            match skipJsonWs rest3 with
            | ',' :: rest4 => parseJsonFields fuel rest4 (acc ++ [(key, v)])
            | '}' :: rest4 => some (Json.obj (acc ++ [(key, v)]), rest4)
            | _ => none
        | _ => none
    | _ => none

end

/-- Model of `JSON.parse`: a full-string JSON document or failure (a JS
throw). -/
def jsonParse (s : String) : Option Json :=
  match parseJsonValue (4 * s.length + 16) s.data with
  | some (v, rest) => if (skipJsonWs rest).isEmpty then some v else none
  | none => none

/-- Parsed judge response (the TS type constrains `score` to `1 | 2 | 3 | 4`). -/
structure ParsedJudgeResponse where
  reasoning : String
  score : ℤ
  rawText : String
deriving DecidableEq

/-- Result of `parseJudgeResponse`: tagged success or structured error. -/
inductive JudgeParseResult where
  | success (parsed : ParsedJudgeResponse)
  | failure (rawText : String) (error : String)
deriving DecidableEq

/-- `MAX_REASONING_LENGTH` from src/graders/llm/judge-parser.ts. -/
def MAX_REASONING_LENGTH : ℕ := 2000

/-- Property access on a `JSON.parse` object: with duplicate keys the last
entry wins. -/
def jsLookupField (fields : List (String × Json)) (key : String) : Option Json :=
  ((fields.filter fun f => f.1 == key).getLast?).map (·.2)

/-- JS `record.k1 ?? record.k2 ?? …`: the first field that is neither
missing nor `null`. -/
def jsCoalesce (fields : List (String × Json)) : List String → Option Json
  | [] => none
  | k :: ks =>
    match jsLookupField fields k with
    | some Json.null => jsCoalesce fields ks
    | some v => some v
    | none => jsCoalesce fields ks

/-- From src/graders/llm/judge-parser.ts, `validateParsed`: shared schema
validation. Score field names `score`/`rating`/`total_rating`; must be an
integer in `[1, 4]`. Reasoning field names
`reasoning`/`evaluation`/`explanation`/`rationale`; must be a non-empty
string after trim; truncated to 2000 characters. -/
def validateParsed (obj : Json) (rawText : String) : Option ParsedJudgeResponse :=
  match obj with
  | Json.obj fields =>
    match jsCoalesce fields ["score", "rating", "total_rating"] with
    | some (Json.num q) =>
      if 1 ≤ q ∧ q ≤ 4 ∧ q.den = 1 then
        match jsCoalesce fields ["reasoning", "evaluation", "explanation", "rationale"] with
        | some (Json.str s) =>
          if jsTrim s ≠ "" then
            some { reasoning := jsSlice (jsTrim s) MAX_REASONING_LENGTH, score := q.num,
                   rawText := rawText }
          else none
        | _ => none
      else none
    | _ => none
  | _ => none

/-- First occurrence split: `(before, after)` around the first occurrence of
`sub`, or `none`. -/
def splitAtSublist (sub : List Char) : List Char → Option (List Char × List Char)
  | [] => if sub.isEmpty then some ([], []) else none
  | c :: rest =>
    if sub.isPrefixOf (c :: rest) then some ([], (c :: rest).drop sub.length)
    else (splitAtSublist sub rest).map fun p => (c :: p.1, p.2)

/-- The Layer-2 fenced-block regex as a direct scanner: text after the first
fence (skipping an optional `json` tag and whitespace) and before the next
fence, one trailing newline stripped. -/
def extractCodeBlock (text : String) : Option String :=
  match splitAtSublist "```".data text.data with
  | none => none
  | some (_, afterOpen) =>
    let afterLang := if ("json".data).isPrefixOf afterOpen then afterOpen.drop 4 else afterOpen
    let afterWs := afterLang.dropWhile Char.isWhitespace
    match splitAtSublist "```".data afterWs with
    | none => none
    | some (capture, _) =>
      some (String.mk (if capture.getLast? == some '\n' then capture.dropLast else capture))

/-- The Layer-2 brace regex (greedy, so from the first opening brace to the
last closing brace). -/
def extractBraces (text : String) : Option String :=
  let cs := text.data
  match cs.findIdx? (· == '{'), cs.reverse.findIdx? (· == '}') with
  | some i, some jr =>
    let j := cs.length - 1 - jr
    if i < j then some (String.mk ((cs.drop i).take (j - i + 1))) else none
  | _, _ => none

/-- Model of the regex class `\s`. -/
def jsWs (c : Char) : Bool := c.isWhitespace

/-- The regex class `[1-4]`. -/
def isScoreDigit (c : Char) : Bool :=
  c == '1' || c == '2' || c == '3' || c == '4'

/-- The alternation `(?:score|rating)` (case-insensitive) at the head of
`cs`: the remainder after the keyword, or `none`. -/
def scoreKeywordDrop (cs : List Char) : Option (List Char) :=
  if (cs.take 5).map Char.toLower = "score".data then some (cs.drop 5)
  else if (cs.take 6).map Char.toLower = "rating".data then some (cs.drop 6)
  else none

/-- The Layer-3 score regex tried at the head of `cs`: keyword `score` or
`rating` (case-insensitive), `\s*`, `:` or `=`, `\s*`, a digit 1–4 not
followed by another digit. Returns the consumed match and the digit. -/
def tryScoreAt (cs : List Char) : Option (List Char × Char) :=
  match scoreKeywordDrop cs with
  | none => none
  | some rest1 =>
    match rest1.dropWhile jsWs with
    | sep :: rest3 =>
      if sep == ':' || sep == '=' then
        match rest3.dropWhile jsWs with
        | d :: rest5 =>
          if isScoreDigit d then
            match rest5 with
            | next :: _ =>
              if next.isDigit then none
              else some (cs.take (cs.length - rest5.length), d)
            | [] => some (cs.take (cs.length - rest5.length), d)
          else none
        | [] => none
      else none
    | [] => none

/-- Leftmost match of the Layer-3 score regex. -/
def findScoreMatch : List Char → Option (List Char × Char)
  | [] => none
  | c :: rest =>
    match tryScoreAt (c :: rest) with
    | some r => some r
    | none => findScoreMatch rest

/-- JS `indexOf` of a substring (as character lists). -/
def firstIndexOfSublist (sub : List Char) : List Char → Option ℕ
  | [] => if sub.isEmpty then some 0 else none
  | c :: rest =>
    if sub.isPrefixOf (c :: rest) then some 0
    else (firstIndexOfSublist sub rest).map (· + 1)

/-- The reasoning regex lookahead `(?=\n\s*(?:score|rating)|$)` at a
position (the `$` alternative is handled by the caller). -/
def reasoningLookahead (cs : List Char) : Bool :=
  match cs with
  | '\n' :: rest =>
    let r := rest.dropWhile jsWs
    (r.take 5).map Char.toLower = "score".data || (r.take 6).map Char.toLower = "rating".data
  | _ => false

/-- Continuation of the lazy capture `([\s\S]+?)`: extend until the
lookahead holds or the input ends. -/
def lazyCaptureRest : List Char → List Char
  | [] => []
  | c :: rest => if reasoningLookahead (c :: rest) then [] else c :: lazyCaptureRest rest

/-- The Layer-3 reasoning regex tried at the head of `cs`: keyword
`reasoning`/`evaluation`/`explanation` (case-insensitive), `\s*`, `:` or
`=`, `\s*`, then the lazy capture. When `\s*` runs to the end of the input
the lazy `+?` backtracks to capture the final whitespace character. -/
def tryReasoningAt (cs : List Char) : Option (List Char) :=
  let afterKw : Option (List Char) :=
    if (cs.take 9).map Char.toLower = "reasoning".data then some (cs.drop 9)
    else if (cs.take 10).map Char.toLower = "evaluation".data then some (cs.drop 10)
    else if (cs.take 11).map Char.toLower = "explanation".data then some (cs.drop 11)
    else none
  match afterKw with
  | none => none
  | some rest1 =>
    match rest1.dropWhile jsWs with
    | sep :: rest3 =>
      if sep == ':' || sep == '=' then
        match rest3.dropWhile jsWs with
        | c :: rest5 => some (c :: lazyCaptureRest rest5)
        | [] => if rest3.isEmpty then none else some [rest3.getLastD ' ']
      else none
    | [] => none

/-- Leftmost match of the Layer-3 reasoning regex. -/
def findReasoningMatch : List Char → Option (List Char)
  | [] => none
  | c :: rest =>
    match tryReasoningAt (c :: rest) with
    | some r => some r
    | none => findReasoningMatch rest

/-- From src/graders/llm/judge-parser.ts, `tryStrictJson` (Layer 1). -/
def tryStrictJson (text : String) : Option ParsedJudgeResponse :=
  match jsonParse (jsTrim text) with
  | some v => validateParsed v text
  | none => none

/-- The brace-extraction attempt of Layer 2 (`objectMatch` in the source):
the first-to-last-brace substring, parsed and validated. -/
def bracesAttempt (text : String) : Option ParsedJudgeResponse :=
  match extractBraces text with
  | some objText =>
    match jsonParse objText with
    | some v => validateParsed v text
    | none => none
  | none => none

/-- From src/graders/llm/judge-parser.ts, `tryExtractJson` (Layer 2): fenced
block first; only a JSON.parse throw (not a validation failure) falls
through to the brace extraction, as does an empty (falsy) capture. -/
def tryExtractJson (text : String) : Option ParsedJudgeResponse :=
  match extractCodeBlock text with
  | some inner =>
    if inner == "" then bracesAttempt text
    else
      match jsonParse (jsTrim inner) with
      | some v => validateParsed v text
      | none => bracesAttempt text
  | none => bracesAttempt text

/-- From src/graders/llm/judge-parser.ts, `tryPatternMatch` (Layer 3). -/
def tryPatternMatch (text : String) : Option ParsedJudgeResponse :=
  match findScoreMatch text.data with
  | none => none
  | some (matched, d) =>
    let score : ℤ := ((d.toNat - '0'.toNat : ℕ) : ℤ)
    let reasoning : String :=
      match findReasoningMatch text.data with
      | some cap => jsTrim (String.mk cap)
      | none =>
        match firstIndexOfSublist matched text.data with
        | some i => jsTrim (String.mk (text.data.take i))
        | none => jsTrim (String.mk (text.data.take (text.data.length - 1)))
    if reasoning == "" then none
    else some { reasoning := jsSlice reasoning MAX_REASONING_LENGTH, score := score,
                rawText := text }

/-- From src/graders/llm/judge-parser.ts, `parseJudgeResponse`: the
three-layer fallback parser. -/
def parseJudgeResponse (text : String) : JudgeParseResult :=
  if text == "" || (jsTrim text).length == 0 then
    JudgeParseResult.failure text
      "Empty judge response. Expected JSON with 'reasoning' and 'score' fields."
  else
    match tryStrictJson text with
    | some parsed => JudgeParseResult.success parsed
    | none =>
      match tryExtractJson text with
      | some parsed => JudgeParseResult.success parsed
      | none =>
        match tryPatternMatch text with
        | some parsed => JudgeParseResult.success parsed
        | none =>
          JudgeParseResult.failure text
            "Could not parse judge response. Expected JSON with 'reasoning' and 'score' fields."

/-- Spec-side predicate: at index `i` a required grader failed
(`configs[i].required && !grades[i].pass`). -/
def requiredFailedAt (grades : List GradeResult) (configs : List GraderConfig) (i : ℕ) : Prop :=
  ∃ g c, grades[i]? = some g ∧ configs[i]? = some c ∧
    c.required.getD false = true ∧ g.pass = false

/-- Spec-side formula: `Σ grade.score · (config.weight ?? 1)` over the paired
lists. -/
def specWeightedSum (grades : List GradeResult) (configs : List GraderConfig) : ℚ :=
  ((grades.zip configs).map fun p => p.1.score * p.2.weight.getD 1).sum

/-- Spec-side formula: `Σ (config.weight ?? 1)` over the paired lists. -/
def specTotalWeight (grades : List GradeResult) (configs : List GraderConfig) : ℚ :=
  ((grades.zip configs).map fun p => p.2.weight.getD 1).sum

/-- Sample always-passing grader (concrete inputs for witnesses). -/
def passG : GraderFn := fun _ _ _ =>
  { pass := true, score := 1, reason := "passed", graderName := "pass" }

/-- Sample always-failing grader. -/
def failG : GraderFn := fun _ _ _ =>
  { pass := false, score := 0, reason := "failed", graderName := "fail" }

/-- Sample partially-scoring grader. -/
def partialG : GraderFn := fun _ _ _ =>
  { pass := true, score := 7 / 10, reason := "partial", graderName := "partial" }

/-- Sample target output. -/
def sampleOutput : TargetOutput := { text := some "hello world", latencyMs := 100 }

/-- Sample output with no tool calls. -/
def noCallsOutput : TargetOutput := { text := some "x", latencyMs := 10 }

/-- Sample grader context. -/
def sampleCtx : GraderContext :=
  { caseId := "test", suiteId := "test", mode := RunMode.live, graderName := "" }

/-- Sample grader config around `passG`. -/
def passConfig : GraderConfig := { grader := passG }

/-- Sample grader config around `failG`. -/
def failConfig : GraderConfig := { grader := failG }

/-- Sample required grader config. -/
def requiredConfig : GraderConfig := { grader := passG, required := some true }

/-- Sample failing grade named `a`. -/
def gradeFailA : GradeResult := { pass := false, score := 0, reason := "failed", graderName := "a" }

/-- Sample failing grade named `b`. -/
def gradeFailB : GradeResult := { pass := false, score := 0, reason := "failed", graderName := "b" }

/-- Sample passing grade named `a`. -/
def gradePassA : GradeResult := { pass := true, score := 1, reason := "ok", graderName := "a" }

/-- Sample stored trial (with an `error` status, as a judge-only input). -/
def sampleTrial : Trial :=
  { caseId := "C01", status := TrialStatus.error, output := sampleOutput, grades := [],
    score := 0, durationMs := 50, trialIndex := some 0 }

/-- Default trial (for JS-style partial accessors such as `head!`). -/
instance : Inhabited Trial :=
  ⟨{ caseId := "", status := TrialStatus.error, output := { latencyMs := 0 }, grades := [],
     score := 0, durationMs := 0 }⟩

/-- Sample persisted run. -/
def sampleRun : Run :=
  { schemaVersion := "1.0.0", id := "run-1", suiteId := "smoke", mode := RunMode.live,
    trials := [sampleTrial], timestamp := "2026-01-01T00:00:00Z", configHash := "abcd",
    frameworkVersion := "0.1.0" }

/-- Sample case. -/
def sampleCase : Case :=
  { id := "C01", expected := some { text := some "expected-value" } }

/-- Sample resolved suite. -/
def sampleSuite : ResolvedSuite :=
  { name := "smoke", target := fun _ => sampleOutput, cases := [sampleCase],
    defaultGraders := some [passConfig] }

/-- Sample judge-only options. -/
def sampleJudgeOnlyOptions : JudgeOnlyOptions :=
  { previousRun := sampleRun, suiteConfig := sampleSuite,
    runOptions := { mode := RunMode.judgeOnly, timeoutMs := 30000 } }

/-- Sample tool call named `search`. -/
def searchCall : ToolCall := { name := "search" }

/-- Sample output with one tool call. -/
def someCallsOutput : TargetOutput :=
  { text := some "x", toolCalls := some [searchCall], latencyMs := 50 }

lemma foldlMin_mem (a : ℚ) (l : List ℚ) : l.foldl min a ∈ a :: l := by
  induction l generalizing a with
  | nil => simp
  | cons x xs ih =>
    have h := ih (min a x)
    rw [List.foldl_cons]
    rcases List.mem_cons.mp h with h1 | h1
    · rcases min_choice a x with h2 | h2
      · exact List.mem_cons.mpr (Or.inl (h1.trans h2))
      · exact List.mem_cons.mpr (Or.inr (List.mem_cons.mpr (Or.inl (h1.trans h2))))
    · exact List.mem_cons.mpr (Or.inr (List.mem_cons.mpr (Or.inr h1)))

lemma foldlMin_le (a : ℚ) (l : List ℚ) :
    l.foldl min a ≤ a ∧ ∀ x ∈ l, l.foldl min a ≤ x := by
  induction l generalizing a with
  | nil => simp
  | cons x xs ih =>
    obtain ⟨h1, h2⟩ := ih (min a x)
    rw [List.foldl_cons]
    refine ⟨le_trans h1 (min_le_left a x), ?_⟩
    intro y hy
    rcases List.mem_cons.mp hy with h3 | h3
    · rw [h3]; exact le_trans h1 (min_le_right a x)
    · exact h2 y h3

lemma foldlMax_mem (a : ℚ) (l : List ℚ) : l.foldl max a ∈ a :: l := by
  induction l generalizing a with
  | nil => simp
  | cons x xs ih =>
    have h := ih (max a x)
    rw [List.foldl_cons]
    rcases List.mem_cons.mp h with h1 | h1
    · rcases max_choice a x with h2 | h2
      · exact List.mem_cons.mpr (Or.inl (h1.trans h2))
      · exact List.mem_cons.mpr (Or.inr (List.mem_cons.mpr (Or.inl (h1.trans h2))))
    · exact List.mem_cons.mpr (Or.inr (List.mem_cons.mpr (Or.inr h1)))

lemma foldlMax_ge (a : ℚ) (l : List ℚ) :
    a ≤ l.foldl max a ∧ ∀ x ∈ l, x ≤ l.foldl max a := by
  induction l generalizing a with
  | nil => simp
  | cons x xs ih =>
    obtain ⟨h1, h2⟩ := ih (max a x)
    rw [List.foldl_cons]
    refine ⟨le_trans (le_max_left a x) h1, ?_⟩
    intro y hy
    rcases List.mem_cons.mp hy with h3 | h3
    · rw [h3]; exact le_trans (le_max_right a x) h1
    · exact h2 y h3

lemma jsMathMin_mem (l : List ℚ) (h : l ≠ []) : jsMathMin l ∈ l := by
  cases l with
  | nil => exact absurd rfl h
  | cons x xs => simpa [jsMathMin] using foldlMin_mem x xs

lemma jsMathMin_le (l : List ℚ) (x : ℚ) (hx : x ∈ l) : jsMathMin l ≤ x := by
  cases l with
  | nil => simp at hx
  | cons a as =>
    rcases List.mem_cons.mp hx with h | h
    · exact h ▸ (foldlMin_le a as).1
    · exact (foldlMin_le a as).2 x h

lemma jsMathMax_mem (l : List ℚ) (h : l ≠ []) : jsMathMax l ∈ l := by
  cases l with
  | nil => exact absurd rfl h
  | cons x xs => simpa [jsMathMax] using foldlMax_mem x xs

lemma jsMathMax_ge (l : List ℚ) (x : ℚ) (hx : x ∈ l) : x ≤ jsMathMax l := by
  cases l with
  | nil => simp at hx
  | cons a as =>
    rcases List.mem_cons.mp hx with h | h
    · exact h ▸ (foldlMax_ge a as).1
    · exact (foldlMax_ge a as).2 x h

lemma filterMapRange_eq_zip {α β γ : Type} (f : α → β → Option γ) :
    ∀ (as : List α) (bs : List β), as.length = bs.length →
    ((List.range as.length).filterMap fun i =>
      (as[i]?).bind fun a => (bs[i]?).bind fun b => f a b) =
    (as.zip bs).filterMap fun p => f p.1 p.2 := by
  intro as
  induction as with
  | nil => intro bs _; simp
  | cons a as ih =>
    intro bs h
    cases bs with
    | nil => simp at h
    | cons b bs =>
      have hlen : as.length = bs.length := by simpa using h
      rw [List.length_cons, List.range_succ_eq_map, List.filterMap_cons, List.filterMap_map]
      have hfun : ((fun i => ((a :: as)[i]?).bind fun x =>
          ((b :: bs)[i]?).bind fun y => f x y) ∘ Nat.succ) =
          fun i => (as[i]?).bind fun x => (bs[i]?).bind fun y => f x y := by
        funext i
        simp [Function.comp, List.getElem?_cons_succ]
      rw [hfun, ih bs hlen]
      simp [List.zip_cons_cons, List.filterMap_cons, List.getElem?_cons_zero]

lemma filterMapRange_head {γ : Type} :
    ∀ (n : ℕ) (f : ℕ → Option γ), (∃ i, i < n ∧ (f i).isSome) →
    ∃ j v, j < n ∧ f j = some v ∧ (∀ k, k < j → f k = none) ∧
      ((List.range n).filterMap f).head? = some v := by
  intro n
  induction n with
  | zero =>
    rintro f ⟨i, hi, _⟩
    omega
  | succ n ih =>
    intro f hex
    cases hf0 : f 0 with
    | some v =>
      refine ⟨0, v, Nat.succ_pos n, hf0, fun k hk => absurd hk (Nat.not_lt_zero k), ?_⟩
      rw [List.range_succ_eq_map, List.filterMap_cons, hf0]
      rfl
    | none =>
      obtain ⟨i, hi, hsome⟩ := hex
      cases i with
      | zero => rw [hf0] at hsome; simp at hsome
      | succ i2 =>
        obtain ⟨j, v, hj, hfj, hmin, hhead⟩ := ih (fun k => f (k + 1)) ⟨i2, by omega, hsome⟩
        refine ⟨j + 1, v, by omega, hfj, ?_, ?_⟩
        · intro k hk
          cases k with
          | zero => exact hf0
          | succ k2 => exact hmin k2 (by omega)
        · rw [List.range_succ_eq_map, List.filterMap_cons, hf0, List.filterMap_map]
          simpa [Function.comp] using hhead

/-- The parsed value of the Layer-3 sample input (for the C3 witness). -/
def sampleParsedTwo : ParsedJudgeResponse :=
  { reasoning := "ok", score := 2, rawText := "Reasoning: ok\nScore: 2" }

lemma pairPick_eq_bind (grades : List GradeResult) (configs : List GraderConfig) :
    pairPick grades configs = fun i =>
      (grades[i]?).bind fun g => (configs[i]?).bind fun c => some (g, c) := by
  funext i
  unfold pairPick
  cases grades[i]? <;> cases configs[i]? <;> rfl

lemma requiredFailPick_eq_bind (grades : List GradeResult) (configs : List GraderConfig) :
    requiredFailPick grades configs = fun i =>
      (grades[i]?).bind fun g => (configs[i]?).bind fun c =>
        if c.required.getD false && !g.pass then some g.graderName else none := by
  funext i
  unfold requiredFailPick
  cases grades[i]? <;> cases configs[i]? <;> rfl

lemma requiredFailedAt_iff_pick (grades : List GradeResult) (configs : List GraderConfig)
    (i : ℕ) :
    requiredFailedAt grades configs i ↔ (requiredFailPick grades configs i).isSome := by
  unfold requiredFailedAt requiredFailPick
  cases hg : grades[i]? with
  | none => simp
  | some g =>
    cases hc : configs[i]? with
    | none => simp
    | some c =>
      dsimp only
      constructor
      · rintro ⟨g2, c2, h1, h2, h3, h4⟩
        obtain rfl : g2 = g := by injection h1 with h; exact h.symm
        obtain rfl : c2 = c := by injection h2 with h; exact h.symm
        rw [if_pos (by simp [h3, h4])]
        rfl
      · intro h
        by_cases hb : (c.required.getD false && !g.pass) = true
        · simp only [Bool.and_eq_true, Bool.not_eq_true'] at hb
          exact ⟨g, c, rfl, rfl, hb.1, hb.2⟩
        · rw [if_neg hb] at h
          cases h

lemma requiredFailedAt_lt (grades : List GradeResult) (configs : List GraderConfig)
    (i : ℕ) (h : requiredFailedAt grades configs i) : i < grades.length := by
  obtain ⟨g, c, hg, -, -, -⟩ := h
  obtain ⟨hi, -⟩ := List.getElem?_eq_some_iff.mp hg
  exact hi

lemma requiredFailPick_some_spec (grades : List GradeResult) (configs : List GraderConfig)
    (i : ℕ) (v : String) (h : requiredFailPick grades configs i = some v) :
    ∃ g c, grades[i]? = some g ∧ configs[i]? = some c ∧
      c.required.getD false = true ∧ g.pass = false ∧ v = g.graderName := by
  unfold requiredFailPick at h
  cases hg : grades[i]? with
  | none => rw [hg] at h; cases h
  | some g =>
    cases hc : configs[i]? with
    | none => rw [hg, hc] at h; cases h
    | some c =>
      rw [hg, hc] at h
      dsimp only at h
      by_cases hb : (c.required.getD false && !g.pass) = true
      · rw [if_pos hb] at h
        injection h with h2
        simp only [Bool.and_eq_true, Bool.not_eq_true'] at hb
        exact ⟨g, c, rfl, rfl, hb.1, hb.2, h2.symm⟩
      · rw [if_neg hb] at h
        cases h

lemma headD_of_head? {α : Type} (l : List α) (d v : α) (h : l.head? = some v) :
    l.headD d = v := by
  cases l <;> simp_all

lemma codePairs_eq_zip (grades : List GradeResult) (configs : List GraderConfig)
    (hlen : grades.length = configs.length) :
    codePairs grades configs = grades.zip configs := by
  have h := filterMapRange_eq_zip (fun (a : GradeResult) (b : GraderConfig) => some (a, b))
    grades configs hlen
  have h2 : (grades.zip configs).filterMap
      (fun (p : GradeResult × GraderConfig) => some (p.1, p.2)) = grades.zip configs := by
    have h1 : (fun (p : GradeResult × GraderConfig) => some (p.1, p.2)) =
        (some : GradeResult × GraderConfig → Option (GradeResult × GraderConfig)) := by
      funext p
      rfl
    rw [h1, List.filterMap_some]
  unfold codePairs
  rw [pairPick_eq_bind]
  exact h.trans h2

lemma failedRequiredList_eq_zip (grades : List GradeResult) (configs : List GraderConfig)
    (hlen : grades.length = configs.length) :
    failedRequiredList grades configs = (grades.zip configs).filterMap fun p =>
      if p.2.required.getD false && !p.1.pass then some p.1.graderName else none := by
  have h := filterMapRange_eq_zip (fun (a : GradeResult) (b : GraderConfig) =>
    if b.required.getD false && !a.pass then some a.graderName else none) grades configs hlen
  unfold failedRequiredList
  rw [requiredFailPick_eq_bind]
  exact h

lemma failedRequiredList_nil_iff (grades : List GradeResult) (configs : List GraderConfig) :
    failedRequiredList grades configs = [] ↔ ∀ i, ¬ requiredFailedAt grades configs i := by
  unfold failedRequiredList
  rw [List.filterMap_eq_nil_iff]
  constructor
  · intro h i hreq
    have hiS := (requiredFailedAt_iff_pick grades configs i).mp hreq
    have hilen := requiredFailedAt_lt grades configs i hreq
    rw [h i (List.mem_range.mpr hilen)] at hiS
    cases hiS
  · intro h i _
    cases hp : requiredFailPick grades configs i with
    | none => rfl
    | some v =>
      exact absurd ((requiredFailedAt_iff_pick grades configs i).mpr (by rw [hp]; rfl)) (h i)

lemma computeCaseResult_noRequired_eq (grades : List GradeResult)
    (configs : List GraderConfig) (t : ℚ) (hne : grades.isEmpty = false)
    (hfr : failedRequiredList grades configs = []) :
    computeCaseResult grades configs t = weightedResult grades configs t := by
  rw [computeCaseResult, if_neg (by simp [hne]), if_pos (by simp [hfr])]

lemma computeCaseResult_required_eq (grades : List GradeResult)
    (configs : List GraderConfig) (t : ℚ) (hne : grades.isEmpty = false)
    (hfr : (failedRequiredList grades configs).isEmpty = false) :
    computeCaseResult grades configs t =
      requiredFailureResult grades (failedRequiredList grades configs) := by
  rw [computeCaseResult, if_neg (by simp [hne]), if_neg (by simp [hfr])]

lemma codeWeightedSum_eq_spec (grades : List GradeResult) (configs : List GraderConfig)
    (hlen : grades.length = configs.length) :
    codeWeightedSum grades configs = specWeightedSum grades configs := by
  unfold codeWeightedSum specWeightedSum
  rw [codePairs_eq_zip grades configs hlen]

lemma codeTotalWeight_eq_spec (grades : List GradeResult) (configs : List GraderConfig)
    (hlen : grades.length = configs.length) :
    codeTotalWeight grades configs = specTotalWeight grades configs := by
  unfold codeTotalWeight specTotalWeight
  rw [codePairs_eq_zip grades configs hlen]

lemma matchSequence_superset_fst (actual expected : List String) :
    (matchSequence actual expected ToolSequenceMode.superset).1 =
      (actual.filter fun t => !(expected.contains t)).isEmpty := by
  have hdef : matchSequence actual expected ToolSequenceMode.superset =
      (if (actual.filter fun t => !(expected.contains t)).isEmpty then ((true : Bool), "")
       else ((false : Bool), "Unexpected tools called: " ++
         String.intercalate ", " (actual.filter fun t => !(expected.contains t)))) := rfl
  rw [hdef, apply_ite Prod.fst]
  by_cases h : (actual.filter fun t => !(expected.contains t)).isEmpty = true
  · rw [if_pos h, h]
  · rw [if_neg h]
    simp only [Bool.not_eq_true] at h
    rw [h]

lemma stringMk_ne_empty (l : List Char) (h : l ≠ []) : String.mk l ≠ "" := by
  intro hcon
  have h2 : l = [] := congrArg String.data hcon
  exact h h2

lemma jsSlice_ne_empty (s : String) (n : ℕ) (hs : s ≠ "") (hn : 0 < n) :
    jsSlice s n ≠ "" := by
  unfold jsSlice
  apply stringMk_ne_empty
  cases hd : s.data with
  | nil => exact absurd (String.ext hd) hs
  | cons c cs =>
    cases n with
    | zero => omega
    | succ m => simp

lemma validateParsed_sound (obj : Json) (raw : String) (p : ParsedJudgeResponse)
    (h : validateParsed obj raw = some p) :
    (p.score = 1 ∨ p.score = 2 ∨ p.score = 3 ∨ p.score = 4) ∧ p.reasoning ≠ "" := by
  unfold validateParsed at h
  split at h
  · split at h
    · rename_i q hsc
      split at h
      · rename_i hq
        split at h
        · rename_i sv hrs
          split at h
          · rename_i hne
            injection h with hp
            subst hp
            obtain ⟨h1, h2, h3⟩ := hq
            constructor
            · have hnum : (q.num : ℚ) = q := by
                rw [Rat.den_eq_one_iff] at h3
                exact h3
              have hge : (1 : ℤ) ≤ q.num := by
                rw [← hnum] at h1
                exact_mod_cast h1
              have hle : q.num ≤ 4 := by
                rw [← hnum] at h2
                exact_mod_cast h2
              dsimp only
              omega
            · dsimp only
              exact jsSlice_ne_empty _ _ hne (by norm_num [MAX_REASONING_LENGTH])
          · cases h
        · cases h
      · cases h
    · cases h
  · cases h

lemma tryScoreAt_digit (cs : List Char) (m : List Char) (d : Char)
    (h : tryScoreAt cs = some (m, d)) : isScoreDigit d = true := by
  unfold tryScoreAt at h
  cases hk : scoreKeywordDrop cs with
  | none => rw [hk] at h; cases h
  | some rest1 =>
    rw [hk] at h
    dsimp only at h
    cases hdw : rest1.dropWhile jsWs with
    | nil => rw [hdw] at h; cases h
    | cons sep rest3 =>
      rw [hdw] at h
      dsimp only at h
      by_cases hsep : (sep == ':' || sep == '=') = true
      · rw [if_pos hsep] at h
        cases hdw2 : rest3.dropWhile jsWs with
        | nil => rw [hdw2] at h; cases h
        | cons d0 rest5 =>
          rw [hdw2] at h
          dsimp only at h
          by_cases hd0 : isScoreDigit d0 = true
          · rw [if_pos hd0] at h
            cases rest5 with
            | nil =>
              injection h with hp
              injection hp with hp1 hp2
              subst hp2
              exact hd0
            | cons next tail =>
              dsimp only at h
              by_cases hnext : next.isDigit = true
              · rw [if_pos hnext] at h
                cases h
              · rw [if_neg hnext] at h
                injection h with hp
                injection hp with hp1 hp2
                subst hp2
                exact hd0
          · rw [if_neg hd0] at h
            cases h
      · rw [if_neg hsep] at h
        cases h

lemma findScoreMatch_digit (cs : List Char) :
    ∀ m d, findScoreMatch cs = some (m, d) → isScoreDigit d = true := by
  induction cs with
  | nil => intro m d h; cases h
  | cons c rest ih =>
    intro m d h
    rw [findScoreMatch] at h
    split at h
    · rename_i r heq
      injection h with h2
      subst h2
      exact tryScoreAt_digit (c :: rest) m d heq
    · exact ih m d h

lemma tryPatternMatch_sound (text : String) (p : ParsedJudgeResponse)
    (h : tryPatternMatch text = some p) :
    (p.score = 1 ∨ p.score = 2 ∨ p.score = 3 ∨ p.score = 4) ∧ p.reasoning ≠ "" := by
  unfold tryPatternMatch at h
  split at h
  · cases h
  · rename_i matched d heq
    dsimp only at h
    split at h
    · cases h
    · rename_i hne
      injection h with hp
      subst hp
      constructor
      · have hd := findScoreMatch_digit text.data matched d heq
        simp only [isScoreDigit, Bool.or_eq_true, beq_iff_eq] at hd
        dsimp only
        rcases hd with ((rfl | rfl) | rfl) | rfl
        · left; decide
        · right; left; decide
        · right; right; left; decide
        · right; right; right; decide
      · dsimp only
        refine jsSlice_ne_empty _ _ ?_ (by norm_num [MAX_REASONING_LENGTH])
        simpa using hne

lemma tryStrictJson_sound (text : String) (p : ParsedJudgeResponse)
    (h : tryStrictJson text = some p) : ∃ obj, validateParsed obj text = some p := by
  unfold tryStrictJson at h
  split at h
  · exact ⟨_, h⟩
  · cases h

lemma bracesAttempt_sound (text : String) (p : ParsedJudgeResponse)
    (h : bracesAttempt text = some p) : ∃ obj, validateParsed obj text = some p := by
  unfold bracesAttempt at h
  split at h
  · split at h
    · exact ⟨_, h⟩
    · cases h
  · cases h

lemma tryExtractJson_sound (text : String) (p : ParsedJudgeResponse)
    (h : tryExtractJson text = some p) : ∃ obj, validateParsed obj text = some p := by
  unfold tryExtractJson at h
  split at h
  · split at h
    · exact bracesAttempt_sound text p h
    · split at h
      · exact ⟨_, h⟩
      · exact bracesAttempt_sound text p h
  · exact bracesAttempt_sound text p h

/-- C4: the grader combinators satisfy the composition laws: `all` applied to
the empty list returns pass=true with score 1; `any` applied to the empty
list returns pass=false with score 0; for non-empty lists `all`'s score is
the minimum and `any`'s score is the maximum of the sub-grader scores; and
for every grader `g` and every output, `not (not g)` equals `g` on both
`pass` and `score`. -/
theorem grader_composition_laws :
    (∀ (o : TargetOutput) (e : Option CaseExpected) (c : GraderContext),
      ((all []) o e c).pass = true ∧ ((all []) o e c).score = 1) ∧
    (∀ (o : TargetOutput) (e : Option CaseExpected) (c : GraderContext),
      ((any []) o e c).pass = false ∧ ((any []) o e c).score = 0) ∧
    (∀ (gs : List GraderFn) (o : TargetOutput) (e : Option CaseExpected) (c : GraderContext),
      gs ≠ [] →
      ((all gs) o e c).score ∈ (gs.map fun g => (g o e c).score) ∧
      ∀ s ∈ (gs.map fun g => (g o e c).score), ((all gs) o e c).score ≤ s) ∧
    (∀ (gs : List GraderFn) (o : TargetOutput) (e : Option CaseExpected) (c : GraderContext),
      gs ≠ [] →
      ((any gs) o e c).score ∈ (gs.map fun g => (g o e c).score) ∧
      ∀ s ∈ (gs.map fun g => (g o e c).score), s ≤ ((any gs) o e c).score) ∧
    (∀ (g : GraderFn) (o : TargetOutput) (e : Option CaseExpected) (c : GraderContext),
      ((not (not g)) o e c).pass = (g o e c).pass ∧
      ((not (not g)) o e c).score = (g o e c).score) := by
  refine ⟨fun o e c => ⟨rfl, rfl⟩, fun o e c => ⟨rfl, rfl⟩, ?_, ?_, ?_⟩
  · intro gs o e c hne
    cases gs with
    | nil => exact absurd rfl hne
    | cons g gs2 =>
      have h1 : ((all (g :: gs2)) o e c).score =
          jsMathMin (((g :: gs2).map fun gr => gr o e c).map fun r => r.score) := rfl
      constructor
      · rw [h1, List.map_map]
        have h2 := jsMathMin_mem ((g :: gs2).map fun gr => (gr o e c).score) (by simp)
        simpa [Function.comp] using h2
      · intro s hs
        rw [h1, List.map_map]
        apply jsMathMin_le
        simpa [Function.comp] using hs
  · intro gs o e c hne
    cases gs with
    | nil => exact absurd rfl hne
    | cons g gs2 =>
      have h1 : ((any (g :: gs2)) o e c).score =
          jsMathMax (((g :: gs2).map fun gr => gr o e c).map fun r => r.score) := by
        cases hp : ((g :: gs2).map fun gr => gr o e c).any (fun r => r.pass) <;>
          simp only [any, List.isEmpty_cons, hp, Bool.false_eq_true, if_false, if_true]
      constructor
      · rw [h1, List.map_map]
        have h2 := jsMathMax_mem ((g :: gs2).map fun gr => (gr o e c).score) (by simp)
        simpa [Function.comp] using h2
      · intro s hs
        rw [h1, List.map_map]
        apply jsMathMax_ge
        simpa [Function.comp] using hs
  · intro g o e c
    constructor
    · show (!(!(g o e c).pass)) = (g o e c).pass
      exact Bool.not_not _
    · show 1 - (1 - (g o e c).score) = (g o e c).score
      ring

/-- C4 witness: the composition laws applied to the concrete grader list
`[passG, failG]` and the sample output. -/
theorem grader_composition_laws_witness :
    ([passG, failG] ≠ ([] : List GraderFn)) ∧
    ((all [passG, failG]) sampleOutput none sampleCtx).score ∈
      ([passG, failG].map fun g => (g sampleOutput none sampleCtx).score) ∧
    ((any [passG, failG]) sampleOutput none sampleCtx).score ∈
      ([passG, failG].map fun g => (g sampleOutput none sampleCtx).score) := by
  refine ⟨by simp, ?_, ?_⟩
  · exact (grader_composition_laws.2.2.1 [passG, failG] sampleOutput none sampleCtx
      (by simp)).1
  · exact (grader_composition_laws.2.2.2.1 [passG, failG] sampleOutput none sampleCtx
      (by simp)).1

/-- C6: evidence theorem for the `byCategory` aggregation: `computeByCategory`
is a TODO stub, so the summary computed from any trial list omits
`byCategory`, no matter what categories the suite's cases carry. -/
theorem computePartialSummary_byCategory_none (trials : List Trial) (totalDurationMs : ℕ) :
    (computePartialSummary trials totalDurationMs).byCategory = none := rfl

/-- C5: judge-only mode emits one trial per stored trial, preserving the
stored `output`, `durationMs`, `trialIndex` (and `caseId`); and the result
does not depend on the suite's target function, which is never invoked. -/
theorem runJudgeOnly_preserves_trials (options : JudgeOnlyOptions) :
    (runJudgeOnly options).length = options.previousRun.trials.length ∧
    (∀ i : ℕ, ((runJudgeOnly options)[i]?).map Trial.output =
      (options.previousRun.trials[i]?).map Trial.output) ∧
    (∀ i : ℕ, ((runJudgeOnly options)[i]?).map Trial.durationMs =
      (options.previousRun.trials[i]?).map Trial.durationMs) ∧
    (∀ i : ℕ, ((runJudgeOnly options)[i]?).map Trial.trialIndex =
      (options.previousRun.trials[i]?).map Trial.trialIndex) ∧
    (∀ i : ℕ, ((runJudgeOnly options)[i]?).map Trial.caseId =
      (options.previousRun.trials[i]?).map Trial.caseId) ∧
    (∀ target2 : CaseInput → TargetOutput,
      runJudgeOnly { options with
        suiteConfig := { options.suiteConfig with target := target2 } } =
      runJudgeOnly options) := by
  refine ⟨?_, ?_, ?_, ?_, ?_, fun target2 => rfl⟩
  · simp [runJudgeOnly]
  all_goals
    intro i
    simp only [runJudgeOnly, List.getElem?_map]
    cases options.previousRun.trials[i]? <;> rfl

/-- C9: when the target invocation throws or times out, the runner emits an
error trial: status `error`, a synthesized output whose text is
`Target error: …` (the timeout message being `Timeout after Nms`) and whose
`latencyMs` is the measured duration, an empty grade list and score 0; and
the suite loop still produces one trial per case, in order, whatever each
case's outcome is. -/
theorem executeCase_error_trial (testCase : Case) (suite : ResolvedSuite)
    (options : RunOptions) (durationMs : ℕ) :
    (∀ msg, executeCase testCase suite options (TargetOutcome.throws msg) durationMs =
      { caseId := testCase.id, status := TrialStatus.error,
        output := { text := some ("Target error: " ++ msg), latencyMs := (durationMs : ℚ) },
        grades := [], score := 0, durationMs := durationMs }) ∧
    (executeCase testCase suite options TargetOutcome.timeout durationMs =
      { caseId := testCase.id, status := TrialStatus.error,
        output := { text := some ("Target error: " ++
                      ("Timeout after " ++ toString options.timeoutMs ++ "ms")),
                    latencyMs := (durationMs : ℚ) },
        grades := [], score := 0, durationMs := durationMs }) ∧
    (∀ env : Case → TargetOutcome × ℕ,
      (runSuiteTrials suite options env).length = suite.cases.length ∧
      ∀ i : ℕ, ((runSuiteTrials suite options env)[i]?).map Trial.caseId =
        (suite.cases[i]?).map Case.id) := by
  refine ⟨fun msg => rfl, rfl, fun env => ⟨List.length_map _ _, ?_⟩⟩
  intro i
  simp only [runSuiteTrials, List.getElem?_map]
  cases h : suite.cases[i]? with
  | none => rfl
  | some c =>
    show some (executeCase c suite options (env c).1 (env c).2).caseId = some c.id
    cases (env c).1 <;> rfl

/-- C10: every trial emitted by judge-only mode has status `pass` or `fail`,
never `error` — each stored trial (whatever its stored status) is
re-classified from the fresh scoring result. -/
theorem runJudgeOnly_status_pass_or_fail (options : JudgeOnlyOptions) (t : Trial)
    (ht : t ∈ runJudgeOnly options) :
    t.status = TrialStatus.pass ∨ t.status = TrialStatus.fail := by
  simp only [runJudgeOnly, List.mem_map] at ht
  obtain ⟨trial, _, rfl⟩ := ht
  dsimp only
  split
  · exact Or.inl rfl
  · exact Or.inr rfl

/-- C10 witness: judge-only over the sample run (whose stored trial has
status `error`) yields a first trial with status `pass` or `fail`. -/
theorem runJudgeOnly_status_witness :
    (runJudgeOnly sampleJudgeOnlyOptions).head!.status = TrialStatus.pass ∨
    (runJudgeOnly sampleJudgeOnlyOptions).head!.status = TrialStatus.fail := by
  have h1 : (runJudgeOnly sampleJudgeOnlyOptions).length = 1 := rfl
  have h2 : runJudgeOnly sampleJudgeOnlyOptions ≠ [] :=
    List.ne_nil_of_length_pos (by rw [h1]; omega)
  exact runJudgeOnly_status_pass_or_fail sampleJudgeOnlyOptions _ (List.head!_mem_self h2)

/-- C7 counterexample: with no tool calls in the output and a non-empty
expected list, "every name in output.toolCalls appears in the expected
list" holds vacuously, yet the superset-mode grader fails. -/
theorem toolSequence_superset_counterexample :
    ((toolSequence ["search"] ToolSequenceMode.superset) noCallsOutput none sampleCtx).pass
      = false ∧
    (∀ name ∈ (([] : List ToolCall).map ToolCall.name), name ∈ ["search"]) :=
  ⟨rfl, by simp⟩

/-- C7 amended: in superset mode, when the output has at least one tool
call the grader passes iff every called tool name appears in the expected
list; when the output has no tool calls (absent or empty) it passes iff
the expected list is empty. -/
theorem toolSequence_superset_pass_iff (tools : List String) (output : TargetOutput)
    (e : Option CaseExpected) (c : GraderContext) :
    (∀ tcs, output.toolCalls = some tcs → tcs ≠ [] →
      (((toolSequence tools ToolSequenceMode.superset) output e c).pass = true ↔
        ∀ name ∈ tcs.map ToolCall.name, name ∈ tools)) ∧
    ((output.toolCalls = none ∨ output.toolCalls = some []) →
      (((toolSequence tools ToolSequenceMode.superset) output e c).pass = true ↔
        tools = [])) := by
  constructor
  · intro tcs htc hne
    obtain ⟨a, l, rfl⟩ : ∃ a l, tcs = a :: l := by
      cases tcs with
      | nil => exact absurd rfl hne
      | cons a l => exact ⟨a, l, rfl⟩
    have hpass : ((toolSequence tools ToolSequenceMode.superset) output e c).pass =
        (matchSequence ((a :: l).map ToolCall.name) tools ToolSequenceMode.superset).1 := by
      simp only [toolSequence, htc, List.isEmpty_cons, Bool.false_eq_true, if_false]
    rw [hpass, matchSequence_superset_fst, List.isEmpty_iff]
    constructor
    · intro h name hmem
      by_cases hc : tools.contains name = true
      · simpa using hc
      · exfalso
        have hfil : name ∈ ((a :: l).map ToolCall.name).filter fun t => !(tools.contains t) :=
          List.mem_filter.mpr ⟨hmem, by simpa using hc⟩
        rw [h] at hfil
        exact absurd hfil (List.not_mem_nil name)
    · intro h
      apply List.filter_eq_nil_iff.mpr
      intro nm hnm
      simp only [Bool.not_eq_true]
      simpa using h nm hnm
  · intro hnone
    rcases hnone with h | h
    · simp only [toolSequence, h]
      cases tools with
      | nil => simp
      | cons t ts => simp
    · simp only [toolSequence, h, List.isEmpty_nil, if_true]
      cases tools with
      | nil => simp
      | cons t ts => simp

/-- C7 witness: the amended superset rule applied to a concrete output with
one `search` tool call. -/
theorem toolSequence_superset_pass_iff_witness :
    someCallsOutput.toolCalls = some [searchCall] ∧
    (((toolSequence ["search", "format"] ToolSequenceMode.superset)
        someCallsOutput none sampleCtx).pass = true ↔
      ∀ name ∈ [searchCall].map ToolCall.name, name ∈ ["search", "format"]) := by
  refine ⟨rfl, ?_⟩
  exact (toolSequence_superset_pass_iff ["search", "format"] someCallsOutput none
    sampleCtx).1 [searchCall] rfl (by simp)

/-- C1: with matching grader configs, if any required grader's grade fails,
`computeCaseResult` returns pass=false and score=0 regardless of the other
graders' weights and scores, and its reason names the first failing
required grader. -/
theorem computeCaseResult_required_failure (grades : List GradeResult)
    (configs : List GraderConfig) (caseThreshold : ℚ)
    (hlen : grades.length = configs.length)
    (hfail : ∃ i, requiredFailedAt grades configs i) :
    (computeCaseResult grades configs caseThreshold).pass = false ∧
    (computeCaseResult grades configs caseThreshold).score = 0 ∧
    ∃ j g, requiredFailedAt grades configs j ∧
      (∀ k, k < j → ¬ requiredFailedAt grades configs k) ∧
      grades[j]? = some g ∧
      ∃ rest, (computeCaseResult grades configs caseThreshold).reason =
        "Required grader '" ++ g.graderName ++ "' failed: " ++ rest := by
  obtain ⟨i, hi⟩ := hfail
  have hilen := requiredFailedAt_lt grades configs i hi
  have hiS := (requiredFailedAt_iff_pick grades configs i).mp hi
  obtain ⟨j, v, hj, hpj, hmin, hhead⟩ :=
    filterMapRange_head grades.length (requiredFailPick grades configs) ⟨i, hilen, hiS⟩
  have hne : grades.isEmpty = false := by
    cases grades with
    | nil => simp at hilen
    | cons a l => rfl
  have hfrhead : (failedRequiredList grades configs).head? = some v := hhead
  have hfrne : (failedRequiredList grades configs).isEmpty = false := by
    cases hfr : failedRequiredList grades configs with
    | nil => rw [hfr] at hfrhead; cases hfrhead
    | cons x xs => rfl
  have hres := computeCaseResult_required_eq grades configs caseThreshold hne hfrne
  obtain ⟨g, c, hg, hc, hreq, hpass, hv⟩ := requiredFailPick_some_spec grades configs j v hpj
  refine ⟨by rw [hres]; rfl, by rw [hres]; rfl, j, g, ?_, ?_, hg, ?_⟩
  · exact (requiredFailedAt_iff_pick grades configs j).mpr (by rw [hpj]; rfl)
  · intro k hk hreqk
    have hS := (requiredFailedAt_iff_pick grades configs k).mp hreqk
    rw [hmin k hk] at hS
    cases hS
  · rw [hres]
    have hhd : (failedRequiredList grades configs).headD "" = g.graderName :=
      (headD_of_head? (failedRequiredList grades configs) "" v hfrhead).trans hv
    refine ⟨failedGradeReason (grades.find? fun g2 =>
      (failedRequiredList grades configs).contains g2.graderName && !g2.pass), ?_⟩
    show (requiredFailureResult grades (failedRequiredList grades configs)).reason = _
    unfold requiredFailureResult
    dsimp only
    rw [hhd]

/-- C1 witness: a single failing required grader at a concrete input. -/
theorem computeCaseResult_required_failure_witness :
    (computeCaseResult [gradeFailA] [requiredConfig] (1 / 2)).pass = false ∧
    (computeCaseResult [gradeFailA] [requiredConfig] (1 / 2)).score = 0 := by
  have h := computeCaseResult_required_failure [gradeFailA] [requiredConfig] (1 / 2) rfl
    ⟨0, gradeFailA, requiredConfig, rfl, rfl, rfl, rfl⟩
  exact ⟨h.1, h.2.1⟩

/-- C2: with matching configs, a non-empty grade list and no failing
required grader, the case score is the weighted sum over the total weight
(1 when the total weight is 0, given the data model's non-negative
weights), the case passes iff the score reaches the inferred threshold
(equality included), and that threshold is the minimum of the configured
per-grader thresholds, defaulting to 0.5 when none are set. -/
theorem computeCaseResult_weighted_average (grades : List GradeResult)
    (configs : List GraderConfig)
    (hlen : grades.length = configs.length) (hne : grades ≠ [])
    (hnoreq : ∀ i, ¬ requiredFailedAt grades configs i)
    (hw : ∀ c ∈ configs, 0 ≤ c.weight.getD 1) :
    (computeCaseResult grades configs (inferThreshold configs)).score =
      (if specTotalWeight grades configs = 0 then 1
       else specWeightedSum grades configs / specTotalWeight grades configs) ∧
    ((computeCaseResult grades configs (inferThreshold configs)).pass = true ↔
      inferThreshold configs ≤
        (computeCaseResult grades configs (inferThreshold configs)).score) ∧
    ((configs.filterMap fun c => c.threshold) = [] → inferThreshold configs = 1 / 2) ∧
    ((configs.filterMap fun c => c.threshold) ≠ [] →
      inferThreshold configs ∈ configs.filterMap fun c => c.threshold) ∧
    (∀ x ∈ configs.filterMap fun c => c.threshold, inferThreshold configs ≤ x) ∧
    ((computeCaseResult grades configs (inferThreshold configs)).score =
        inferThreshold configs →
      (computeCaseResult grades configs (inferThreshold configs)).pass = true) := by
  have hneb : grades.isEmpty = false := by
    cases grades with
    | nil => exact absurd rfl hne
    | cons a l => rfl
  have hfr : failedRequiredList grades configs = [] :=
    (failedRequiredList_nil_iff grades configs).mpr hnoreq
  have hres := computeCaseResult_noRequired_eq grades configs (inferThreshold configs) hneb hfr
  have hscore : (weightedResult grades configs (inferThreshold configs)).score =
      (if codeTotalWeight grades configs > 0 then
        codeWeightedSum grades configs / codeTotalWeight grades configs else 1) := rfl
  have hpassd : (weightedResult grades configs (inferThreshold configs)).pass =
      decide ((weightedResult grades configs (inferThreshold configs)).score ≥
        inferThreshold configs) := rfl
  have htw0 : 0 ≤ codeTotalWeight grades configs := by
    unfold codeTotalWeight
    rw [codePairs_eq_zip grades configs hlen]
    apply List.sum_nonneg
    intro x hx
    obtain ⟨p, hp, rfl⟩ := List.mem_map.mp hx
    exact hw p.2 (List.of_mem_zip hp).2
  refine ⟨?_, ?_, ?_, ?_, ?_, ?_⟩
  · rw [hres, hscore, codeWeightedSum_eq_spec grades configs hlen,
      codeTotalWeight_eq_spec grades configs hlen]
    rw [codeTotalWeight_eq_spec grades configs hlen] at htw0
    by_cases h0 : specTotalWeight grades configs = 0
    · rw [if_neg (by rw [h0]; exact lt_irrefl 0), if_pos h0]
    · rw [if_pos (lt_of_le_of_ne htw0 (Ne.symm h0)), if_neg h0]
  · rw [hres, hpassd, decide_eq_true_eq]
  · intro h
    simp [inferThreshold, h]
  · intro h
    simp only [inferThreshold]
    rw [if_neg (by simpa using h)]
    exact jsMathMin_mem _ h
  · intro x hx
    have h : (configs.filterMap fun c => c.threshold) ≠ [] := by
      intro hcon
      rw [hcon] at hx
      exact absurd hx (List.not_mem_nil x)
    simp only [inferThreshold]
    rw [if_neg (by simpa using h)]
    exact jsMathMin_le _ x hx
  · intro hsc
    rw [hres] at hsc ⊢
    rw [hpassd, decide_eq_true_eq]
    rw [hsc]

/-- C2 witness: the weighted-average rule applied to one passing grade and
one default config. -/
theorem computeCaseResult_weighted_average_witness :
    (computeCaseResult [gradePassA] [passConfig] (inferThreshold [passConfig])).score =
      (if specTotalWeight [gradePassA] [passConfig] = 0 then 1
       else specWeightedSum [gradePassA] [passConfig] /
         specTotalWeight [gradePassA] [passConfig]) := by
  have hno : ∀ i, ¬ requiredFailedAt [gradePassA] [passConfig] i := by
    intro i
    rintro ⟨g, c, hg, hc, hreq, hpass⟩
    cases i with
    | zero =>
      injection hc with hc2
      rw [← hc2] at hreq
      simp [passConfig] at hreq
    | succ n =>
      rw [List.getElem?_cons_succ] at hg
      simp at hg
  have hwt : ∀ c ∈ [passConfig], 0 ≤ c.weight.getD 1 := by
    intro c hc
    rw [List.mem_singleton] at hc
    subst hc
    simp [passConfig]
  exact (computeCaseResult_weighted_average [gradePassA] [passConfig] rfl (by simp)
    hno hwt).1

/-- C8 counterexample: when the early required-failure branch is taken,
a failing non-required grader's name is missing from `failedGraders`, so
the claim's "every grader with pass=false, including when the early branch
is taken" is false at this input. -/
theorem computeCaseResult_failedGraders_counterexample :
    gradeFailB.pass = false ∧
    "b" ∉ (computeCaseResult [gradeFailA, gradeFailB] [requiredConfig, failConfig]
      (1 / 2)).failedGraders := by
  exact ⟨rfl, by decide⟩

/-- C8 amended: when no required grader fails, `failedGraders` contains
exactly the names of the graders whose grade has pass=false; when some
required grader fails (the early branch), it contains exactly the names of
the failing required graders. -/
theorem computeCaseResult_failedGraders_complete (grades : List GradeResult)
    (configs : List GraderConfig) (t : ℚ)
    (hlen : grades.length = configs.length) :
    ((∀ i, ¬ requiredFailedAt grades configs i) →
      ∀ name, name ∈ (computeCaseResult grades configs t).failedGraders ↔
        ∃ g ∈ grades, g.pass = false ∧ name = g.graderName) ∧
    ((∃ i, requiredFailedAt grades configs i) →
      ∀ name, name ∈ (computeCaseResult grades configs t).failedGraders ↔
        ∃ p ∈ grades.zip configs, p.2.required.getD false = true ∧ p.1.pass = false ∧
          name = p.1.graderName) := by
  constructor
  · intro hno name
    by_cases hgr : grades.isEmpty = true
    · have hnil : grades = [] := List.isEmpty_iff.mp hgr
      subst hnil
      rw [computeCaseResult]
      simp
    · have hneb : grades.isEmpty = false := by simpa using hgr
      have hfr : failedRequiredList grades configs = [] :=
        (failedRequiredList_nil_iff grades configs).mpr hno
      rw [computeCaseResult_noRequired_eq grades configs t hneb hfr]
      have hfg : (weightedResult grades configs t).failedGraders =
          codeFailedGraders grades configs := rfl
      rw [hfg]
      unfold codeFailedGraders
      rw [codePairs_eq_zip grades configs hlen]
      constructor
      · intro hmem2
        obtain ⟨p, hp, rfl⟩ := List.mem_map.mp hmem2
        have hfil := List.mem_filter.mp hp
        refine ⟨p.1, (List.of_mem_zip hfil.1).1, ?_, rfl⟩
        simpa using hfil.2
      · rintro ⟨g, hg, hpass, rfl⟩
        have hmap : (grades.zip configs).map Prod.fst = grades :=
          List.map_fst_zip grades configs (le_of_eq hlen)
        rw [← hmap] at hg
        obtain ⟨p, hp, hfst⟩ := List.mem_map.mp hg
        apply List.mem_map.mpr
        refine ⟨p, List.mem_filter.mpr ⟨hp, by simp [hfst, hpass]⟩, by rw [hfst]⟩
  · intro hex name
    obtain ⟨i, hi⟩ := hex
    have hilen := requiredFailedAt_lt grades configs i hi
    have hneb : grades.isEmpty = false := by
      cases grades with
      | nil => simp at hilen
      | cons a l => rfl
    have hfrne : (failedRequiredList grades configs).isEmpty = false := by
      cases hfr : failedRequiredList grades configs with
      | nil => exact absurd hi ((failedRequiredList_nil_iff grades configs).mp hfr i)
      | cons x xs => rfl
    rw [computeCaseResult_required_eq grades configs t hneb hfrne]
    have hfg : (requiredFailureResult grades (failedRequiredList grades configs)).failedGraders =
        failedRequiredList grades configs := rfl
    rw [hfg, failedRequiredList_eq_zip grades configs hlen, List.mem_filterMap]
    constructor
    · rintro ⟨p, hp, hsome⟩
      by_cases hb : (p.2.required.getD false && !p.1.pass) = true
      · rw [if_pos hb] at hsome
        injection hsome with hname
        simp only [Bool.and_eq_true, Bool.not_eq_true'] at hb
        exact ⟨p, hp, hb.1, hb.2, hname.symm⟩
      · rw [if_neg hb] at hsome
        cases hsome
    · rintro ⟨p, hp, hreq, hpass, rfl⟩
      exact ⟨p, hp, by rw [if_pos (by simp [hreq, hpass])]⟩

/-- C8 witness: the required-failure branch of the amended rule at the
counterexample's input. -/
theorem computeCaseResult_failedGraders_complete_witness :
    "a" ∈ (computeCaseResult [gradeFailA, gradeFailB] [requiredConfig, failConfig]
        (1 / 2)).failedGraders ↔
      ∃ p ∈ [gradeFailA, gradeFailB].zip [requiredConfig, failConfig],
        p.2.required.getD false = true ∧ p.1.pass = false ∧ "a" = p.1.graderName := by
  exact (computeCaseResult_failedGraders_complete [gradeFailA, gradeFailB]
    [requiredConfig, failConfig] (1 / 2) rfl).2
    ⟨0, gradeFailA, requiredConfig, rfl, rfl, rfl, rfl⟩ "a"

/-- C3: for every input string, the judge parser either returns a
structured error or a success whose integer score lies in 1..4 with a
non-empty reasoning string; in particular, for the inputs about a score of
10 and the empty string it returns errors with non-empty messages, never a
successful parse. -/
theorem parseJudgeResponse_sound :
    (∀ text p, parseJudgeResponse text = JudgeParseResult.success p →
      (p.score = 1 ∨ p.score = 2 ∨ p.score = 3 ∨ p.score = 4) ∧ p.reasoning ≠ "") ∧
    parseJudgeResponse "Score: 10" = JudgeParseResult.failure "Score: 10"
      "Could not parse judge response. Expected JSON with 'reasoning' and 'score' fields." ∧
    parseJudgeResponse "" = JudgeParseResult.failure ""
      "Empty judge response. Expected JSON with 'reasoning' and 'score' fields." ∧
    "Could not parse judge response. Expected JSON with 'reasoning' and 'score' fields." ≠ "" ∧
    "Empty judge response. Expected JSON with 'reasoning' and 'score' fields." ≠ "" := by
  refine ⟨?_, by decide, by decide, by decide, by decide⟩
  intro text p h
  unfold parseJudgeResponse at h
  split at h
  · cases h
  · split at h
    · rename_i parsed heq
      injection h with hp
      subst hp
      obtain ⟨obj, hv⟩ := tryStrictJson_sound text parsed heq
      exact validateParsed_sound obj text parsed hv
    · split at h
      · rename_i parsed heq
        injection h with hp
        subst hp
        obtain ⟨obj, hv⟩ := tryExtractJson_sound text parsed heq
        exact validateParsed_sound obj text parsed hv
      · split at h
        · rename_i parsed heq
          injection h with hp
          subst hp
          exact tryPatternMatch_sound text parsed heq
        · cases h

/-- C3 witness: the universal score/reasoning property applied to the
Layer-3 sample input, whose parse succeeds with score 2. -/
theorem parseJudgeResponse_sound_witness :
    (sampleParsedTwo.score = 1 ∨ sampleParsedTwo.score = 2 ∨ sampleParsedTwo.score = 3 ∨
      sampleParsedTwo.score = 4) ∧ sampleParsedTwo.reasoning ≠ "" :=
  parseJudgeResponse_sound.1 "Reasoning: ok\nScore: 2" sampleParsedTwo (by decide)

end AgentEval
